import Mathlib

/-!
Shallow embedding of the Reveal scrape-and-archive sync pipeline
(`src/reveal_sync.py`, `src/reveal_sync_jump.py`, and the older
`TaylorRanch/src/reveal_sync.py` variant).

Browser-driven effects (navigation, element reads, downloads, object-store
uploads, SQL) are modelled as explicit data: the remote source is a list of
external ids together with per-id rendered detail views and download
results, the catalog is a list of rows kept newest-first (matching the
source's `ORDER BY created_at DESC` watermark query and `INSERT` order),
and the object store's per-attempt success is an oracle `Nat → Bool`
(fault injection on the upload step).  Python `float()` and
`datetime.strptime` are external primitives; they are passed in as
parameters (`pf` decides which strings `float()` accepts, `strp` maps a
format string and an input to an optional timestamp).
-/

namespace RevealSyncModel

/-- `MAX_UPLOAD_RETRIES` from `reveal_sync.py`. -/
def MAX_UPLOAD_RETRIES : Nat := 3

/-- `RETRY_DELAY` (seconds) from `reveal_sync.py`. -/
def RETRY_DELAY : Nat := 5

/-- `ALLOWED_IMAGE_TYPES` from `reveal_sync.py`. -/
def ALLOWED_IMAGE_TYPES : List String := ["image/jpeg", "image/png"]

/-- `MAX_IMAGE_SIZE` (10 MiB) from `reveal_sync.py`. -/
def MAX_IMAGE_SIZE : Nat := 10 * 1024 * 1024

/-- `target_count` in `RevealSync.sync` (hard-coded to 2 in the source). -/
def target_count : Nat := 2

/-- `max_attempts` in `RevealSync.sync` (hard-coded to 10 in the source). -/
def max_attempts : Nat := 10

/-- `max_attempts` in `RevealSyncJump.sync` (hard-coded to 200). -/
def jump_max_attempts : Nat := 200

/-- The characters Python `str.split()` treats as whitespace. -/
def pyWsChar (c : Char) : Bool :=
  c == ' ' || c == '\t' || c == '\n' || c == '\r' || c == '\x0b' || c == '\x0c'

/-- Helper for `pySplitWs`: walk the characters, accumulating the current
token in reverse; whitespace closes a token and empty tokens are dropped. -/
def pySplitWsAux : List Char → List Char → List String
  | acc, [] => if acc.isEmpty then [] else [String.mk acc.reverse]
  | acc, c :: cs =>
    if pyWsChar c then
      if acc.isEmpty then pySplitWsAux [] cs
      else String.mk acc.reverse :: pySplitWsAux [] cs
    else pySplitWsAux (c :: acc) cs

/-- Python `str.split()` with no separator: split on whitespace runs and
drop the empty pieces. -/
def pySplitWs (s : String) : List String :=
  pySplitWsAux [] s.data

/-- Whether `sep` is a prefix of the character list. -/
def charsStartWith : List Char → List Char → Bool
  | [], _ => true
  | _ :: _, [] => false
  | a :: as, b :: bs => a == b && charsStartWith as bs

/-- Whether `needle` occurs inside the character list. -/
def charsContains (needle : List Char) : List Char → Bool
  | [] => charsStartWith needle []
  | c :: cs => charsStartWith needle (c :: cs) || charsContains needle cs

/-- Python substring test `needle in hay`. -/
def pyIn (needle hay : String) : Bool :=
  charsContains needle.data hay.data

/-- Helper for `pySplitSep`: leftmost nonoverlapping split on a nonempty
separator.  The fuel starts at the input length and every step consumes at
least one character, so the fuel cutoff is unreachable. -/
def pySplitSepAux (sep : List Char) : Nat → List Char → List Char → List String
  | _, acc, [] => [String.mk acc.reverse]
  | 0, acc, l => [String.mk (acc.reverse ++ l)]
  | fuel + 1, acc, c :: cs =>
    if charsStartWith sep (c :: cs) then
      String.mk acc.reverse :: pySplitSepAux sep fuel [] (List.drop (sep.length - 1) cs)
    else pySplitSepAux sep fuel (c :: acc) cs

/-- Python `str.split(sep)` for an explicit separator. -/
def pySplitSep (sep s : String) : List String :=
  if sep.data.isEmpty then [s] else pySplitSepAux sep.data s.data.length [] s.data

/-- Python `str.replace(old, new)` for a nonempty `old`. -/
def pyReplace (old new s : String) : String :=
  String.intercalate new (pySplitSep old s)

/-- Python `str.strip()`: drop whitespace from both ends. -/
def pyStrip (s : String) : String :=
  String.mk (((s.data.dropWhile pyWsChar).reverse.dropWhile pyWsChar).reverse)

/-- Python `str.upper()` on the ASCII labels this pipeline reads. -/
def pyUpper (s : String) : String :=
  String.mk (s.data.map Char.toUpper)

/-- A timestamp value, abstracting Python `datetime`: a year plus an opaque
remainder (month/day/time).  `datetime.replace(year=...)` only touches the
`year` field. -/
structure Tstamp where
  year : Nat
  rest : Nat
deriving DecidableEq, Repr

/-- One cell of the weather grid in the detail-view sidebar: the text of the
white overline label element and of the primary overline value element
(`none` when the corresponding `query_selector` finds nothing, in which case
the loop body does `continue`). -/
structure WeatherContainer where
  label : Option String
  value : Option String
deriving DecidableEq, Repr

/-- The `metadata['location']` dict built by `extract_metadata`. -/
structure LocationMD where
  primary : String
  secondary : String
deriving DecidableEq, Repr

/-- The `metadata['temperature']` dict.  Numeric values are kept as the raw
text accepted by Python `float()`; which strings `float()` accepts is the
external parameter `pf`. -/
structure TempMD where
  value : String
  unit : String
deriving DecidableEq, Repr

/-- The `metadata['wind']` dict (direction, speed, unit). -/
structure WindMD where
  direction : String
  speed : String
  unit : String
deriving DecidableEq, Repr

/-- The `metadata['pressure']` dict (value, unit). -/
structure PressureMD where
  value : String
  unit : String
deriving DecidableEq, Repr

/-- The metadata dict returned by `RevealSync.extract_metadata`: every field
is optional and absent fields are simply missing keys. -/
structure Metadata where
  timestamp : Option String := none
  location : Option LocationMD := none
  temperature : Option TempMD := none
  wind : Option WindMD := none
  pressure : Option PressureMD := none
  sun_status : Option String := none
  moon_phase : Option String := none
deriving DecidableEq, Repr

/-- One iteration of the weather-grid loop in `RevealSync.extract_metadata`
(`src/reveal_sync.py`).  Returns the update the iteration applies to the
metadata dict, or `none` when the Python body raises (an `IndexError` from a
missing list element or a `ValueError` from `float()`): such an exception is
caught only by the `try` around the whole weather block, so it aborts the
remaining iterations.  `pf` tells which strings Python `float()` accepts.
The temperature value is split on the source's literal delimiter `"Â°"`. -/
def parseContainer (pf : String → Bool) (c : WeatherContainer) :
    Option (Metadata → Metadata) :=
  match c.label with
  | none => some (fun m => m)
  | some label =>
    match c.value with
    | none => some (fun m => m)
    | some value =>
      if pyIn "TEMP" (pyUpper label) then
        let parts := pySplitSep "Â°" value
        if pf (parts.headD "") && decide (2 ≤ parts.length) then
          some fun m =>
            { m with temperature := some ⟨parts.headD "", pyStrip (parts.getD 1 "")⟩ }
        else none
      else if pyIn "WIND" (pyUpper label) then
        let parts := pySplitWs value
        if decide (2 ≤ parts.length) && pf (parts.getD 1 "") then
          some fun m =>
            { m with
              wind := some ⟨parts.headD "", parts.getD 1 "",
                String.intercalate " " (parts.drop 2)⟩ }
        else none
      else if pyIn "PRESSURE" (pyUpper label) then
        let parts := pySplitWs value
        if decide (2 ≤ parts.length) && pf (parts.headD "") then
          some fun m => { m with pressure := some ⟨parts.headD "", parts.getD 1 ""⟩ }
        else none
      else if pyIn "SUN" (pyUpper label) then
        some fun m => { m with sun_status := some value }
      else if pyIn "MOON" (pyUpper label) then
        some fun m => { m with moon_phase := some (pyReplace "\n" " " value) }
      else some (fun m => m)

/-- The weather-grid `for` loop: apply each container's update in order; a
raising container stops the loop, keeping the fields accumulated so far
(the surrounding `except` only logs). -/
def weatherLoop (pf : String → Bool) : Metadata → List WeatherContainer → Metadata
  | m, [] => m
  | m, c :: cs =>
    match parseContainer pf c with
    | some upd => weatherLoop pf (upd m) cs
    | none => m

/-- What the detail view renders for one record: whether the sidebar
container is present, the text of the `h6` timestamp element, the texts of
the `p.text-overline.text-primary` location elements, and the weather grid's
containers (`none` when the grid element is absent). -/
structure DetailView where
  sidebarPresent : Bool
  timestampText : Option String
  locationTexts : List String
  weatherGrid : Option (List WeatherContainer)
deriving Repr

/-- `RevealSync.extract_metadata`: `none` when the sidebar is unreadable
(the outer `except` returns `None`); otherwise the partially populated
metadata dict.  Timestamp and location each sit in their own `try` block;
the weather block keeps whatever was parsed before its first exception. -/
def extract_metadata (pf : String → Bool) (v : DetailView) : Option Metadata :=
  if !v.sidebarPresent then none
  else
    let m0 : Metadata := {}
    let m1 :=
      match v.timestampText with
      | some t => { m0 with timestamp := some t }
      | none => m0
    let m2 :=
      match v.locationTexts with
      | p :: s :: _ => { m1 with location := some ⟨p, s⟩ }
      | _ => m1
    let m3 :=
      match v.weatherGrid with
      | some cs => weatherLoop pf m2 cs
      | none => m2
    some m3

/-- A downloaded payload file as the validation code observes it:
`os.path.exists`, `os.path.getsize`, `mimetypes.guess_type(...)[0]`, the md5
hex digest of its contents, and its `os.path.splitext` extension. -/
structure ImageFile where
  onDisk : Bool
  size : Nat
  contentType : Option String
  hash : String
  ext : String
deriving DecidableEq, Repr

/-- The `content_type not in ALLOWED_IMAGE_TYPES` test of
`validate_image_file` (a `None` guess is not in the list). -/
def contentTypeAllowed (f : ImageFile) : Bool :=
  match f.contentType with
  | some t => ALLOWED_IMAGE_TYPES.contains t
  | none => false

/-- `RevealSync.validate_image_file`: existence, maximum size, then
guessed-type whitelist. -/
def validate_image_file (f : ImageFile) : Bool :=
  if !f.onDisk then false
  else if f.size > MAX_IMAGE_SIZE then false
  else contentTypeAllowed f

/-- Environment of one `upload_to_spaces` call: whether the i-th
`upload_fileobj` attempt succeeds (fault injection), the `uuid.uuid4()`
value drawn for the unique filename, and the `CDN_BASE_URL` setting. -/
structure UploadEnv where
  attemptOk : Nat → Bool
  uuidStr : String
  cdnBase : String

/-- The `for attempt in range(MAX_UPLOAD_RETRIES)` retry loop of
`upload_to_spaces`, run over the list of remaining attempt indices.
Returns (success, attempts made, sleeps performed): a failed attempt that is
not the last sleeps `RETRY_DELAY` seconds and retries; a failed last attempt
re-raises with no sleep.  The `[]` case is unreachable from a nonempty
range. -/
def uploadLoop (ok : Nat → Bool) : List Nat → Bool × Nat × List Nat
  | [] => (false, 0, [])
  | [i] => if ok i then (true, 1, []) else (false, 1, [])
  | i :: j :: rest =>
    if ok i then (true, 1, [])
    else
      let r := uploadLoop ok (j :: rest)
      (r.1, r.2.1 + 1, RETRY_DELAY :: r.2.2)

/-- Observable outcome of `upload_to_spaces`: the returned CDN URL (`None`
on validation failure or after the retry budget is exhausted), the number of
upload attempts performed, and the list of backoff delays slept. -/
structure UploadOut where
  url : Option String
  attempts : Nat
  sleeps : List Nat
deriving DecidableEq, Repr

/-- `RevealSync.upload_to_spaces`: validate the file, build the
collision-proof name `images/{reveal_id}_{uuid}{ext}`, then run the bounded
retry loop; the final failure's re-raise is caught by the outer `except`,
which returns `None`. -/
def upload_to_spaces (env : UploadEnv) (f : ImageFile) (reveal_id : String) : UploadOut :=
  if !validate_image_file f then ⟨none, 0, []⟩
  else
    let space_path := "images/" ++ reveal_id ++ "_" ++ env.uuidStr ++ f.ext
    let r := uploadLoop env.attemptOk (List.range MAX_UPLOAD_RETRIES)
    if r.1 then ⟨some (env.cdnBase ++ "/" ++ space_path), r.2.1, r.2.2⟩
    else ⟨none, r.2.1, r.2.2⟩

/-- One row of the `images` table as inserted by
`RevealSync.store_image_data` (`src/reveal_sync.py`). -/
structure Row where
  reveal_id : String
  file_hash : String
  cdn_url : String
  capture_time : Tstamp
  primary_location : String
  secondary_location : String
  temperature : Option String
  temperature_unit : String
  wind_speed : Option String
  wind_direction : String
  wind_unit : String
  raw_metadata : Metadata
  created_at : Tstamp
deriving DecidableEq, Repr

/-- The duplicate lookup
`SELECT ... FROM images WHERE file_hash = %s OR reveal_id = %s`.
The catalog is a list of rows, newest first. -/
def dupQuery (rows : List Row) (file_hash reveal_id : String) : Option Row :=
  rows.find? fun r => r.file_hash == file_hash || r.reveal_id == reveal_id

/-- The single `strptime` format tried by `store_image_data` in
`src/reveal_sync.py`. -/
def CAPTURE_TIME_FORMAT : String := "%B %d, %Y %I:%M %p"

/-- Observable outcome of `store_image_data`: the catalog after the call,
the row inserted (if any), whether the local payload file was removed,
whether the call returned without raising, and how many object-store upload
attempts it performed. -/
structure StoreOut where
  catalog : List Row
  inserted : Option Row
  fileDeleted : Bool
  ok : Bool
  uploadAttempts : Nat
deriving Repr

/-- `RevealSync.store_image_data` (`src/reveal_sync.py`): hash the payload,
return early if the hash or reveal id already exists, upload (raising when
the upload yields no URL, which the outer `except` rolls back and
re-raises), parse the capture time with fallback to `datetime.now()`,
insert the row, commit, and only then delete the local file. -/
def store_image_data (strp : String → String → Option Tstamp) (env : UploadEnv)
    (cat : List Row) (md : Metadata) (f : ImageFile) (reveal_id : String)
    (now : Tstamp) : StoreOut :=
  let file_hash := f.hash
  match dupQuery cat file_hash reveal_id with
  | some _ => ⟨cat, none, false, true, 0⟩
  | none =>
    let u := upload_to_spaces env f reveal_id
    match u.url with
    | none => ⟨cat, none, false, false, u.attempts⟩
    | some cdn_url =>
      let timestamp_str := md.timestamp.getD ""
      let capture_time := (strp CAPTURE_TIME_FORMAT timestamp_str).getD now
      let location := md.location
      let temperature := md.temperature
      let wind := md.wind
      let row : Row :=
        { reveal_id := reveal_id
          file_hash := file_hash
          cdn_url := cdn_url
          capture_time := capture_time
          primary_location := (location.map (·.primary)).getD ""
          secondary_location := (location.map (·.secondary)).getD ""
          temperature := temperature.map (·.value)
          temperature_unit := (temperature.map (·.unit)).getD "F"
          wind_speed := wind.map (·.speed)
          wind_direction := (wind.map (·.direction)).getD ""
          wind_unit := (wind.map (·.unit)).getD "mph"
          raw_metadata := md
          created_at := now }
      ⟨row :: cat, some row, true, true, u.attempts⟩

/-- `RevealSync.validate_image` (`src/reveal_sync.py`): existence check
followed by the duplicate lookup by hash or reveal id.  Note: this variant
has no minimum-size check. -/
def validate_image (cat : List Row) (f : ImageFile) (reveal_id : String) : Bool :=
  if !f.onDisk then false
  else (dupQuery cat f.hash reveal_id).isNone

/-- `RevealSync.get_latest_image_id`:
`SELECT reveal_id FROM images ORDER BY created_at DESC LIMIT 1` over the
newest-first catalog. -/
def get_latest_image_id (cat : List Row) : Option String :=
  cat.head?.map (·.reveal_id)

/-- Everything a sync run consumes from the outside world: the remote
source's record sequence (external ids in navigation order, newest first),
the detail view rendered for each record, the result of triggering each
record's download (`none` when the download fails or the button is
missing), the upload environment drawn for each record, the `float()` and
`strptime` primitives, `datetime.now()`, and what `get_current_image_id`
returns while still on the gallery page before the first card is opened
(there is no `#single-photo` element there, so this may well be `none`). -/
structure RunEnv where
  upstream : List String
  viewOf : String → DetailView
  fileOf : String → Option ImageFile
  uploadEnvOf : String → UploadEnv
  pf : String → Bool
  strp : String → String → Option Tstamp
  now : Tstamp
  initialCurrentId : Option String

/-- The part of the run state that `process_image` touches: the cursor
position in the upstream sequence, the in-run `processed_ids` set, and the
catalog. -/
structure PipeState where
  pos : Nat
  processed : List String
  cat : List Row
deriving DecidableEq, Repr

/-- `RevealSync.get_current_image_id` inside the detail view: the external
id of the record under the cursor, `none` when the cursor has run off the
end of the sequence (the element lookup fails and the method returns
`None`). -/
def currentId (env : RunEnv) (p : PipeState) : Option String :=
  env.upstream.get? p.pos

/-- `RevealSync.process_image(None)` (the arrow-navigation case of
`src/reveal_sync.py`): read the current record's id (failure returns with
no navigation); skip and advance if it is already in `processed_ids`;
otherwise add it to `processed_ids` first, then extract metadata (failure
returns with no navigation), download (a `None` path skips the store but
still advances; `validate_image` failing makes `download_image` delete the
payload and return `None`), store (a raise is caught and returns before
the navigation step), and finally press ArrowRight. -/
def processImageNone (env : RunEnv) (p : PipeState) : PipeState :=
  match currentId env p with
  | none => p
  | some id =>
    if p.processed.contains id then
      { p with pos := p.pos + 1 }
    else
      let p1 := { p with processed := id :: p.processed }
      match extract_metadata env.pf (env.viewOf id) with
      | none => p1
      | some md =>
        match env.fileOf id with
        | none => { p1 with pos := p1.pos + 1 }
        | some f =>
          if !validate_image p1.cat f id then
            { p1 with pos := p1.pos + 1 }
          else
            let r := store_image_data env.strp (env.uploadEnvOf id) p1.cat md f id env.now
            if r.ok then { p1 with cat := r.catalog, pos := p1.pos + 1 }
            else { p1 with cat := r.catalog }

/-- `RevealSync.process_image(first_card)` (the card case): the id comes
from the card's `id` attribute, which is the first record of the sequence;
`processed_ids` is not consulted first, the id is added, then
extract/download/store run as in the arrow case, and no navigation happens
at the end. -/
def processFirstCard (env : RunEnv) (p : PipeState) : PipeState :=
  match env.upstream.get? 0 with
  | none => p
  | some id =>
    let p1 := { p with processed := id :: p.processed }
    match extract_metadata env.pf (env.viewOf id) with
    | none => p1
    | some md =>
      match env.fileOf id with
      | none => p1
      | some f =>
        if !validate_image p1.cat f id then p1
        else
          let r := store_image_data env.strp (env.uploadEnvOf id) p1.cat md f id env.now
          { p1 with cat := r.catalog }

/-- Full state of the orchestrator loop. -/
structure SyncState where
  pipe : PipeState
  successful : Nat
  attempt : Nat
  foundExisting : Bool
deriving DecidableEq, Repr

/-- The Python truthiness-laden watermark test
`latest_id and current_id == latest_id` (an empty-string or missing
`latest_id` is falsy; `None == latest_id` is false). -/
def watermarkHit (latest cur : Option String) : Bool :=
  match latest with
  | none => false
  | some l => l != "" && cur == some l

/-- The `while successful_count < target_count and attempt < max_attempts
and not found_existing` loop of `RevealSync.sync`.  The loop is driven by
structural fuel; started with `fuel = maxAtt` and `attempt = 0`, the fuel
equals `maxAtt - attempt` throughout, so it runs out exactly when the
`attempt < maxAtt` guard would fail and never cuts the loop short.  One
iteration: bump `attempt`, read the current id, stop with
`found_existing` when it equals the watermark (no force), otherwise run
`process_image(None)` and bump `successful_count` exactly when the
catalog's row count grew. -/
def syncLoop (env : RunEnv) (latest : Option String) (force : Bool)
    (target maxAtt : Nat) : Nat → SyncState → SyncState
  | 0, st => st
  | fuel + 1, st =>
    if st.successful < target ∧ st.attempt < maxAtt ∧ st.foundExisting = false then
      let cur := currentId env st.pipe
      if !force && watermarkHit latest cur then
        { st with attempt := st.attempt + 1, foundExisting := true }
      else
        let before := st.pipe.cat.length
        let p2 := processImageNone env st.pipe
        let succ2 :=
          if before < p2.cat.length then st.successful + 1 else st.successful
        syncLoop env latest force target maxAtt fuel
          ⟨p2, succ2, st.attempt + 1, st.foundExisting⟩
    else st

/-- `RevealSync.sync` (without `--force` handling of the CLI): resolve the
watermark from the catalog, bail out if there are no cards, stop before the
first card when the pre-click current id already equals the watermark,
otherwise process the first card (the source then increments
`successful_count` without checking whether a row was actually added) and
enter the main loop. -/
def syncRun (env : RunEnv) (cat0 : List Row) (force : Bool) : SyncState :=
  let latest := get_latest_image_id cat0
  let st0 : SyncState := ⟨⟨0, [], cat0⟩, 0, 0, false⟩
  if env.upstream.isEmpty then st0
  else if !force && watermarkHit latest env.initialCurrentId then st0
  else
    let p1 := processFirstCard env st0.pipe
    syncLoop env latest force target_count max_attempts max_attempts ⟨p1, 1, 0, false⟩

/-- `RevealSyncJump.jump_to_position`: click the first card (entering the
detail view at position 0) and press ArrowRight `jump_count` times, with no
extraction, download, or store along the way. -/
def jump_to_position (jumpCount : Nat) (p : PipeState) : PipeState :=
  { p with pos := p.pos + jumpCount }

/-- The main loop of `RevealSyncJump.sync`.  The source runs
`success, is_duplicate = await self.process_image(None)`, but the inherited
`process_image` returns `None`, so unpacking raises a `TypeError` after the
record has been fully processed; the surrounding `except` swallows it and
the `successful_count` increment is never reached.  The loop therefore
repeats until `attempt` reaches the 200-attempt budget (or
`successful_count < record_limit` fails at entry, which with a counter
stuck at 0 only happens for `record_limit = 0`). -/
def jumpLoop (env : RunEnv) (limit : Nat) : Nat → SyncState → SyncState
  | 0, st => st
  | fuel + 1, st =>
    if st.successful < limit ∧ st.attempt < jump_max_attempts then
      let p2 := processImageNone env st.pipe
      jumpLoop env limit fuel ⟨p2, st.successful, st.attempt + 1, st.foundExisting⟩
    else st

/-- `RevealSyncJump.sync` for `--jump N --limit M`: raise when there are no
cards, jump N positions forward, then run the (broken) main loop with the
200-attempt budget. -/
def jumpSyncRun (env : RunEnv) (cat0 : List Row) (jumpCount limit : Nat) :
    Option SyncState :=
  if env.upstream.isEmpty then none
  else
    let p1 := jump_to_position jumpCount ⟨0, [], cat0⟩
    some (jumpLoop env limit jump_max_attempts ⟨p1, 0, 0, false⟩)

end RevealSyncModel

namespace TaylorRanchVariant

open RevealSyncModel

/-- A row of the `images` table of the older `TaylorRanch/src/reveal_sync.py`
variant, restricted to the columns its duplicate check reads
(`SELECT id, filename FROM images WHERE reveal_id = %s`). -/
structure TRRow where
  filename : String
  reveal_id : String
deriving DecidableEq, Repr

/-- `RevealSync.validate_image` of the TaylorRanch variant: existence,
session `processed_ids` membership, the 1000-byte minimum size check, then
the database lookup by reveal id; on success the id is added to
`processed_ids`.  Returns the verdict together with the updated session
set. -/
def validate_image (processed : List String) (rows : List TRRow)
    (f : ImageFile) (reveal_id : String) : Bool × List String :=
  if !f.onDisk then (false, processed)
  else if processed.contains reveal_id then (false, processed)
  else if f.size < 1000 then (false, processed)
  else if (rows.find? fun r => r.reveal_id == reveal_id).isSome then (false, processed)
  else (true, reveal_id :: processed)

/-- The tail of the TaylorRanch `download_image`: after saving the payload,
validate it; on failure the file is unlinked and `None` is returned, and the
caller's `if image_path:` guard then skips `store_image_data` entirely, so
the record is never archived. -/
def download_gate (processed : List String) (rows : List TRRow)
    (f : Option ImageFile) (reveal_id : String) :
    Option ImageFile × List String :=
  match f with
  | none => (none, processed)
  | some file =>
    let v := validate_image processed rows file reveal_id
    if v.1 then (some file, v.2) else (none, v.2)

/-- The first `strptime` format tried by the TaylorRanch
`store_image_data`. -/
def TR_FORMAT1 : String := "%B %d, %I:%M %p"

/-- The second `strptime` format tried by the TaylorRanch
`store_image_data`. -/
def TR_FORMAT2 : String := "%B %d, %I:%M %p %Y"

/-- The capture-time parsing of the TaylorRanch `store_image_data`: default
to `datetime.now()`, try the two formats in order on the stripped timestamp
text, and finally force the year to the current year via
`reveal_timestamp.replace(year=datetime.now().year)`. -/
def parseRevealTimestamp (strp : String → String → Option Tstamp) (now : Tstamp)
    (tsText : Option String) : Tstamp :=
  match tsText with
  | none => now
  | some raw =>
    let s := RevealSyncModel.pyStrip raw
    let t :=
      match strp TR_FORMAT1 s with
      | some t => t
      | none =>
        match strp TR_FORMAT2 s with
        | some t => t
        | none => now
    { t with year := now.year }

end TaylorRanchVariant

namespace RevealSyncModel

/-- Uniqueness invariant of the catalog: `external_id` (`reveal_id`) and
`content_hash` (`file_hash`) are each unique across rows. -/
def uniqueKeys (cat : List Row) : Prop :=
  cat.Pairwise fun a b => a.reveal_id ≠ b.reveal_id ∧ a.file_hash ≠ b.file_hash

/-- A concrete stand-in for Python `float()` acceptance used in worked
examples: nonempty all-digit strings. -/
def pf0 (s : String) : Bool :=
  !(s == "") && s.data.all Char.isDigit

/-- A `strptime` oracle on which every format fails. -/
def strpNone : String → String → Option Tstamp := fun _ _ => none

/-- A fixed ingestion time for worked examples. -/
def t0 : Tstamp := ⟨2024, 0⟩

/-- An upload environment whose every attempt succeeds. -/
def goodUploadEnv : UploadEnv := ⟨fun _ => true, "u", "cdn"⟩

/-- An upload environment whose every attempt fails (fault injection). -/
def failUploadEnv : UploadEnv := ⟨fun _ => false, "u", "cdn"⟩

/-- A healthy downloaded payload for record `id` (5000 bytes, jpeg,
content hash derived from the id). -/
def fileFor (id : String) : ImageFile :=
  ⟨true, 5000, some "image/jpeg", "h" ++ id, ".jpg"⟩

/-- A 500-byte payload, below the spec's minimum byte threshold. -/
def f500 : ImageFile := ⟨true, 500, some "image/jpeg", "h500", ".jpg"⟩

/-- A 450-byte payload for exercising the TaylorRanch size check. -/
def f450 : ImageFile := ⟨true, 450, some "image/jpeg", "h450", ".jpg"⟩

/-- An oversized payload (one byte above the 10 MiB cap). -/
def fBig : ImageFile := ⟨true, MAX_IMAGE_SIZE + 1, some "image/jpeg", "hBig", ".jpg"⟩

/-- A detail view whose fields all read cleanly (empty weather grid). -/
def viewOk : DetailView :=
  ⟨true, some "November 20, 2024 5:06 PM", ["FEEDERS", "CABIN"], some []⟩

/-- A weather grid in which exactly the wind value is malformed ("CALM"
has no second whitespace-separated token, so `parts[1]` raises an
`IndexError`), while temperature, pressure, sun and moon are readable. -/
def windBadGrid : List WeatherContainer :=
  [⟨some "TEMP", some "45Â°F"⟩,
   ⟨some "WIND", some "CALM"⟩,
   ⟨some "PRESSURE", some "30 inHg"⟩,
   ⟨some "SUN", some "6:45 AM"⟩,
   ⟨some "MOON", some "Full Moon"⟩]

/-- The same grid with the malformed wind container removed. -/
def noWindGrid : List WeatherContainer :=
  [⟨some "TEMP", some "45Â°F"⟩,
   ⟨some "PRESSURE", some "30 inHg"⟩,
   ⟨some "SUN", some "6:45 AM"⟩,
   ⟨some "MOON", some "Full Moon"⟩]

/-- Detail view carrying the malformed-wind grid. -/
def v4 : DetailView :=
  ⟨true, some "November 20, 2024 5:06 PM", ["FEEDERS", "CABIN"], some windBadGrid⟩

/-- Detail view carrying the grid without the wind container. -/
def v4noWind : DetailView :=
  ⟨true, some "November 20, 2024 5:06 PM", ["FEEDERS", "CABIN"], some noWindGrid⟩

/-- A catalog row with the given external id and content hash (other
columns immaterial). -/
def mkRow (id h : String) : Row :=
  { reveal_id := id
    file_hash := h
    cdn_url := "u"
    capture_time := t0
    primary_location := ""
    secondary_location := ""
    temperature := none
    temperature_unit := "F"
    wind_speed := none
    wind_direction := ""
    wind_unit := "mph"
    raw_metadata := {}
    created_at := t0 }

/-- Catalog history [A, B, C] with C newest (newest first in the list). -/
def cat3 : List Row := [mkRow "C" "hC", mkRow "B" "hB", mkRow "A" "hA"]

/-- Upstream sequence [D, C, B, A] (newest first) with healthy records and
uploads; the pre-click current id reads as `none` (gallery page). -/
def env3 : RunEnv :=
  { upstream := ["D", "C", "B", "A"]
    viewOf := fun _ => viewOk
    fileOf := fun id => some (fileFor id)
    uploadEnvOf := fun _ => goodUploadEnv
    pf := pf0
    strp := strpNone
    now := t0
    initialCurrentId := none }

/-- Upstream of nine fresh records r0..r8 for the jump-variant run. -/
def env9 : RunEnv :=
  { upstream := ["r0", "r1", "r2", "r3", "r4", "r5", "r6", "r7", "r8"]
    viewOf := fun _ => viewOk
    fileOf := fun id => some (fileFor id)
    uploadEnvOf := fun _ => goodUploadEnv
    pf := pf0
    strp := strpNone
    now := t0
    initialCurrentId := none }

/-- A single-record upstream whose object-store upload always fails, for
exercising the seen-set discipline on a failed commit. -/
def env8 : RunEnv :=
  { upstream := ["X"]
    viewOf := fun _ => viewOk
    fileOf := fun id => some (fileFor id)
    uploadEnvOf := fun _ => failUploadEnv
    pf := pf0
    strp := strpNone
    now := t0
    initialCurrentId := none }

/-- Fresh pipe state over an empty catalog. -/
def p8 : PipeState := ⟨0, [], []⟩

/-- Pipe state in which record X is already in the session seen-set. -/
def p8seen : PipeState := ⟨0, ["X"], []⟩

theorem dupQuery_eq_none_iff (cat : List Row) (h id : String) :
    dupQuery cat h id = none ↔ ∀ r ∈ cat, r.file_hash ≠ h ∧ r.reveal_id ≠ id := by
  simp [dupQuery, List.find?_eq_none, not_or]

theorem store_of_dup (strp : String → String → Option Tstamp) (uenv : UploadEnv)
    (cat : List Row) (md : Metadata) (f : ImageFile) (id : String) (now : Tstamp)
    (h : (dupQuery cat f.hash id).isSome) :
    store_image_data strp uenv cat md f id now = ⟨cat, none, false, true, 0⟩ := by
  cases hd : dupQuery cat f.hash id with
  | none => rw [hd] at h; simp at h
  | some r => simp [store_image_data, hd]

theorem store_of_upload_none (strp : String → String → Option Tstamp) (uenv : UploadEnv)
    (cat : List Row) (md : Metadata) (f : ImageFile) (id : String) (now : Tstamp)
    (hd : dupQuery cat f.hash id = none)
    (hu : (upload_to_spaces uenv f id).url = none) :
    store_image_data strp uenv cat md f id now =
      ⟨cat, none, false, false, (upload_to_spaces uenv f id).attempts⟩ := by
  simp [store_image_data, hd, hu]

theorem store_of_upload_some (strp : String → String → Option Tstamp) (uenv : UploadEnv)
    (cat : List Row) (md : Metadata) (f : ImageFile) (id : String) (now : Tstamp)
    (c : String) (hd : dupQuery cat f.hash id = none)
    (hu : (upload_to_spaces uenv f id).url = some c) :
    ∃ row, row.reveal_id = id ∧ row.file_hash = f.hash ∧ row.cdn_url = c ∧
      row.capture_time = (strp CAPTURE_TIME_FORMAT (md.timestamp.getD "")).getD now ∧
      row.wind_speed = md.wind.map (fun w => w.speed) ∧
      store_image_data strp uenv cat md f id now =
        ⟨row :: cat, some row, true, true, (upload_to_spaces uenv f id).attempts⟩ := by
  simp only [store_image_data, hd, hu]
  exact ⟨_, rfl, rfl, rfl, rfl, rfl, rfl⟩

theorem uploadLoop_range3 (ok : Nat → Bool) :
    uploadLoop ok (List.range MAX_UPLOAD_RETRIES) =
      if ok 0 then (true, 1, [])
      else if ok 1 then (true, 2, [RETRY_DELAY])
      else if ok 2 then (true, 3, [RETRY_DELAY, RETRY_DELAY])
      else (false, 3, [RETRY_DELAY, RETRY_DELAY]) := by
  have hr : List.range MAX_UPLOAD_RETRIES = [0, 1, 2] := rfl
  rw [hr]
  by_cases h0 : ok 0 <;> by_cases h1 : ok 1 <;> by_cases h2 : ok 2 <;>
    simp [uploadLoop, h0, h1, h2]

theorem upload_shape (uenv : UploadEnv) (f : ImageFile) (id : String) :
    (upload_to_spaces uenv f id).attempts ≤ MAX_UPLOAD_RETRIES ∧
    (upload_to_spaces uenv f id).sleeps =
      List.replicate ((upload_to_spaces uenv f id).attempts - 1) RETRY_DELAY := by
  unfold upload_to_spaces
  by_cases hv : validate_image_file f
  · rw [uploadLoop_range3]
    by_cases h0 : uenv.attemptOk 0 <;> by_cases h1 : uenv.attemptOk 1 <;>
      by_cases h2 : uenv.attemptOk 2 <;>
      simp [hv, h0, h1, h2, MAX_UPLOAD_RETRIES, RETRY_DELAY, List.replicate]
  · simp [hv]

theorem upload_all_fail (uenv : UploadEnv) (f : ImageFile) (id : String)
    (hv : validate_image_file f = true)
    (h : ∀ i, i < MAX_UPLOAD_RETRIES → uenv.attemptOk i = false) :
    upload_to_spaces uenv f id =
      ⟨none, MAX_UPLOAD_RETRIES, [RETRY_DELAY, RETRY_DELAY]⟩ := by
  unfold upload_to_spaces
  rw [uploadLoop_range3]
  simp [hv, h 0 (by decide), h 1 (by decide), h 2 (by decide), MAX_UPLOAD_RETRIES]

/-- Claim C1: commit is failure-atomic with respect to the catalog.  If the
upload yields no storage URI after the bounded retries, `store_image_data`
raises: the catalog is unchanged, nothing is inserted, the local file
survives.  A row is inserted only with the URL the successful upload
returned, and the local file is deleted only when both the upload and the
insert succeeded. -/
theorem commit_upload_failure_atomic :
    (∀ (strp : String → String → Option Tstamp) (uenv : UploadEnv) (cat : List Row)
        (md : Metadata) (f : ImageFile) (id : String) (now : Tstamp),
      dupQuery cat f.hash id = none →
      (upload_to_spaces uenv f id).url = none →
      store_image_data strp uenv cat md f id now =
        ⟨cat, none, false, false, (upload_to_spaces uenv f id).attempts⟩) ∧
    (∀ (strp : String → String → Option Tstamp) (uenv : UploadEnv) (cat : List Row)
        (md : Metadata) (f : ImageFile) (id : String) (now : Tstamp) (row : Row),
      (store_image_data strp uenv cat md f id now).inserted = some row →
      (upload_to_spaces uenv f id).url = some row.cdn_url) ∧
    (∀ (strp : String → String → Option Tstamp) (uenv : UploadEnv) (cat : List Row)
        (md : Metadata) (f : ImageFile) (id : String) (now : Tstamp),
      (store_image_data strp uenv cat md f id now).fileDeleted = true →
      (store_image_data strp uenv cat md f id now).inserted.isSome ∧
      (upload_to_spaces uenv f id).url.isSome ∧
      (store_image_data strp uenv cat md f id now).ok = true) := by
  refine ⟨fun strp uenv cat md f id now hd hu => store_of_upload_none _ _ _ _ _ _ _ hd hu,
    fun strp uenv cat md f id now row h => ?_, fun strp uenv cat md f id now h => ?_⟩
  · cases hd : dupQuery cat f.hash id with
    | some r => rw [store_of_dup _ _ _ _ _ _ _ (by rw [hd]; rfl)] at h; simp at h
    | none =>
      cases hu : (upload_to_spaces uenv f id).url with
      | none => rw [store_of_upload_none _ _ _ _ _ _ _ hd hu] at h; simp at h
      | some c =>
        obtain ⟨r, _, _, hc, _, _, hs⟩ := store_of_upload_some strp uenv cat md f id now c hd hu
        rw [hs] at h
        simp only [StoreOut.inserted] at h
        obtain rfl : r = row := Option.some.inj h
        rw [hc]
  · cases hd : dupQuery cat f.hash id with
    | some r => rw [store_of_dup _ _ _ _ _ _ _ (by rw [hd]; rfl)] at h ⊢; simp_all
    | none =>
      cases hu : (upload_to_spaces uenv f id).url with
      | none => rw [store_of_upload_none _ _ _ _ _ _ _ hd hu] at h; simp at h
      | some c =>
        obtain ⟨r, _, _, _, _, _, hs⟩ := store_of_upload_some strp uenv cat md f id now c hd hu
        rw [hs]
        simp [hu]

/-- Witness for C1 at a concrete input: empty catalog, every upload attempt
failing; the commit aborts with the catalog untouched after the 3 attempts. -/
theorem commit_upload_failure_atomic_witness :
    store_image_data strpNone failUploadEnv [] {} f500 "rid" t0 =
      ⟨[], none, false, false, 3⟩ :=
  commit_upload_failure_atomic.1 strpNone failUploadEnv [] {} f500 "rid" t0 rfl rfl

/-- Claim C2: a record whose content hash or external id already exists in
the catalog is committed as a no-op — no row inserted, nothing overwritten,
no upload attempt — and every commit preserves uniqueness of `reveal_id`
and `file_hash` across the catalog. -/
theorem commit_preserves_uniqueness :
    (∀ (strp : String → String → Option Tstamp) (uenv : UploadEnv) (cat : List Row)
        (md : Metadata) (f : ImageFile) (id : String) (now : Tstamp) (r0 : Row),
      r0 ∈ cat → (r0.file_hash = f.hash ∨ r0.reveal_id = id) →
      store_image_data strp uenv cat md f id now = ⟨cat, none, false, true, 0⟩) ∧
    (∀ (strp : String → String → Option Tstamp) (uenv : UploadEnv) (cat : List Row)
        (md : Metadata) (f : ImageFile) (id : String) (now : Tstamp),
      uniqueKeys cat → uniqueKeys (store_image_data strp uenv cat md f id now).catalog) := by
  constructor
  · intro strp uenv cat md f id now r0 hmem hkey
    refine store_of_dup _ _ _ _ _ _ _ ?_
    simp only [dupQuery, List.find?_isSome]
    refine ⟨r0, hmem, ?_⟩
    rcases hkey with h | h <;> simp [h]
  · intro strp uenv cat md f id now huniq
    cases hd : dupQuery cat f.hash id with
    | some r => rw [store_of_dup _ _ _ _ _ _ _ (by rw [hd]; rfl)]; exact huniq
    | none =>
      cases hu : (upload_to_spaces uenv f id).url with
      | none => rw [store_of_upload_none _ _ _ _ _ _ _ hd hu]; exact huniq
      | some c =>
        obtain ⟨r, hid, hh, _, _, _, hs⟩ := store_of_upload_some strp uenv cat md f id now c hd hu
        rw [hs]
        simp only [uniqueKeys, StoreOut.catalog]
        rw [List.pairwise_cons]
        refine ⟨fun b hb => ?_, huniq⟩
        have hfresh := (dupQuery_eq_none_iff cat f.hash id).mp hd b hb
        rw [hid, hh]
        exact ⟨fun e => hfresh.2 e.symm, fun e => hfresh.1 e.symm⟩

/-- Witness for C2: committing a record whose hash and id coincide with the
catalog's row C is a no-op, and uniqueness is preserved on a fresh insert
into the empty catalog. -/
theorem commit_preserves_uniqueness_witness :
    store_image_data strpNone goodUploadEnv cat3 {} (fileFor "C") "C" t0 =
      ⟨cat3, none, false, true, 0⟩ ∧
    uniqueKeys (store_image_data strpNone goodUploadEnv [] {} f500 "rid" t0).catalog :=
  ⟨commit_preserves_uniqueness.1 strpNone goodUploadEnv cat3 {} (fileFor "C") "C" t0
      (mkRow "C" "hC") (by decide) (Or.inl (by decide)),
    commit_preserves_uniqueness.2 strpNone goodUploadEnv [] {} f500 "rid" t0 List.Pairwise.nil⟩

/-- Claim C7: upload attempts are bounded by the fixed budget of 3, every
backoff between consecutive attempts is the fixed 5-second delay with none
after the final attempt so the number of sleeps is one less than the number
of attempts, a run whose every attempt fails exhausts exactly 3 attempts
yielding no URI, and a commit whose upload yields no URI fails without
further retries inside the commit. -/
theorem upload_retry_policy :
    (∀ (uenv : UploadEnv) (f : ImageFile) (id : String),
      (upload_to_spaces uenv f id).attempts ≤ MAX_UPLOAD_RETRIES ∧
      (upload_to_spaces uenv f id).sleeps =
        List.replicate ((upload_to_spaces uenv f id).attempts - 1) RETRY_DELAY ∧
      (validate_image_file f = true →
        (∀ i, i < MAX_UPLOAD_RETRIES → uenv.attemptOk i = false) →
        upload_to_spaces uenv f id =
          ⟨none, MAX_UPLOAD_RETRIES, [RETRY_DELAY, RETRY_DELAY]⟩)) ∧
    (∀ (strp : String → String → Option Tstamp) (uenv : UploadEnv) (cat : List Row)
        (md : Metadata) (f : ImageFile) (id : String) (now : Tstamp),
      (store_image_data strp uenv cat md f id now).uploadAttempts ≤ MAX_UPLOAD_RETRIES ∧
      (dupQuery cat f.hash id = none → (upload_to_spaces uenv f id).url = none →
        (store_image_data strp uenv cat md f id now).ok = false)) := by
  constructor
  · intro uenv f id
    exact ⟨(upload_shape uenv f id).1, (upload_shape uenv f id).2,
      fun hv hfail => upload_all_fail uenv f id hv hfail⟩
  · intro strp uenv cat md f id now
    constructor
    · cases hd : dupQuery cat f.hash id with
      | some r => rw [store_of_dup _ _ _ _ _ _ _ (by rw [hd]; rfl)]; exact Nat.zero_le _
      | none =>
        cases hu : (upload_to_spaces uenv f id).url with
        | none =>
          rw [store_of_upload_none _ _ _ _ _ _ _ hd hu]
          exact (upload_shape uenv f id).1
        | some c =>
          obtain ⟨r, _, _, _, _, _, hs⟩ := store_of_upload_some strp uenv cat md f id now c hd hu
          rw [hs]
          exact (upload_shape uenv f id).1
    · intro hd hu
      rw [store_of_upload_none _ _ _ _ _ _ _ hd hu]

/-- Witness for C7 with fault injection making every attempt fail: 3
attempts, two 5-second sleeps, no URI, and the commit fails. -/
theorem upload_retry_policy_witness :
    upload_to_spaces failUploadEnv f500 "rid" =
      ⟨none, MAX_UPLOAD_RETRIES, [RETRY_DELAY, RETRY_DELAY]⟩ ∧
    (store_image_data strpNone failUploadEnv [] {} f500 "rid" t0).ok = false :=
  ⟨(upload_retry_policy.1 failUploadEnv f500 "rid").2.2 rfl (fun _ _ => rfl),
    (upload_retry_policy.2 strpNone failUploadEnv [] {} f500 "rid" t0).2 rfl rfl⟩

/-- Claim C10: a payload above 10 MiB or with a guessed content type outside
the jpeg/png whitelist fails file validation, the upload performs no attempt
and returns no URI, and a commit of a non-duplicate such record fails with
the catalog unchanged. -/
theorem upload_bound_validation :
    ∀ f : ImageFile,
      (f.size > MAX_IMAGE_SIZE ∨ contentTypeAllowed f = false) →
      validate_image_file f = false ∧
      (∀ (uenv : UploadEnv) (id : String), upload_to_spaces uenv f id = ⟨none, 0, []⟩) ∧
      (∀ (strp : String → String → Option Tstamp) (uenv : UploadEnv) (cat : List Row)
          (md : Metadata) (id : String) (now : Tstamp),
        dupQuery cat f.hash id = none →
        store_image_data strp uenv cat md f id now = ⟨cat, none, false, false, 0⟩) := by
  intro f hbad
  have hv : validate_image_file f = false := by
    unfold validate_image_file
    by_cases hdisk : f.onDisk
    · by_cases hsz : f.size > MAX_IMAGE_SIZE
      · simp [hdisk, hsz]
      · rcases hbad with h | h
        · exact absurd h hsz
        · simp [hdisk, hsz, h]
    · simp [hdisk]
  have hup : ∀ (uenv : UploadEnv) (id : String),
      upload_to_spaces uenv f id = ⟨none, 0, []⟩ := by
    intro uenv id
    unfold upload_to_spaces
    simp [hv]
  refine ⟨hv, hup, fun strp uenv cat md id now hd => ?_⟩
  have := store_of_upload_none strp uenv cat md f id now hd (by rw [hup])
  rw [hup] at this
  exact this

/-- Witness for C10 at a payload one byte over the 10 MiB cap. -/
theorem upload_bound_validation_witness :
    validate_image_file fBig = false ∧
    store_image_data strpNone goodUploadEnv [] {} fBig "rid" t0 =
      ⟨[], none, false, false, 0⟩ :=
  ⟨(upload_bound_validation fBig (Or.inl (by decide))).1,
    (upload_bound_validation fBig (Or.inl (by decide))).2.2 strpNone goodUploadEnv [] {} "rid" t0 rfl⟩

theorem weatherLoop_abort (pf : String → Bool) (m : Metadata)
    (cs1 : List WeatherContainer) (bad : WeatherContainer)
    (cs2 : List WeatherContainer) (hbad : parseContainer pf bad = none) :
    weatherLoop pf m (cs1 ++ bad :: cs2) = weatherLoop pf m cs1 := by
  induction cs1 generalizing m with
  | nil => simp [weatherLoop, hbad]
  | cons c cs ih =>
    simp only [List.cons_append, weatherLoop]
    cases parseContainer pf c with
    | none => rfl
    | some upd => exact ih (upd m)

/-- Counterexample to claim C4: in a grid where only the wind value is
malformed, extraction also drops the readable pressure, sun and moon fields
that follow it (the surrounding `except` aborts the whole weather loop),
even though the same pressure text parses fine when the wind container is
absent. -/
theorem extract_partial_field_cex :
    extract_metadata pf0 v4 =
      some { timestamp := some "November 20, 2024 5:06 PM"
             location := some ⟨"FEEDERS", "CABIN"⟩
             temperature := some ⟨"45", "F"⟩
             wind := none
             pressure := none
             sun_status := none
             moon_phase := none } ∧
    extract_metadata pf0 v4noWind =
      some { timestamp := some "November 20, 2024 5:06 PM"
             location := some ⟨"FEEDERS", "CABIN"⟩
             temperature := some ⟨"45", "F"⟩
             wind := none
             pressure := some ⟨"30", "inHg"⟩
             sun_status := some "6:45 AM"
             moon_phase := some "Full Moon" } := by
  exact ⟨by decide, by decide⟩

/-- Claim C4 as amended: when one weather container's text is malformed,
extraction behaves as if the grid ended just before that container — it
keeps the timestamp, the location and every weather field parsed before the
malformed one, and drops the malformed field together with all weather
fields after it; the record still commits successfully, with the dropped
wind field stored as null. -/
theorem extract_partial_field_amended :
    (∀ (pf : String → Bool) (v : DetailView) (cs1 : List WeatherContainer)
        (bad : WeatherContainer) (cs2 : List WeatherContainer),
      v.weatherGrid = some (cs1 ++ bad :: cs2) →
      parseContainer pf bad = none →
      extract_metadata pf v = extract_metadata pf { v with weatherGrid := some cs1 }) ∧
    (∀ (pf : String → Bool) (v : DetailView) (md : Metadata)
        (strp : String → String → Option Tstamp) (uenv : UploadEnv) (cat : List Row)
        (f : ImageFile) (id : String) (now : Tstamp),
      extract_metadata pf v = some md →
      dupQuery cat f.hash id = none →
      (upload_to_spaces uenv f id).url.isSome = true →
      (store_image_data strp uenv cat md f id now).ok = true ∧
      (store_image_data strp uenv cat md f id now).inserted.map (fun r => r.wind_speed) =
        some (md.wind.map fun w => w.speed)) := by
  constructor
  · intro pf v cs1 bad cs2 hgrid hbad
    unfold extract_metadata
    by_cases hs : v.sidebarPresent
    · simp only [hs, hgrid, Bool.not_true, Bool.false_eq_true, if_false]
      rw [weatherLoop_abort pf _ cs1 bad cs2 hbad]
    · simp [hs]
  · intro pf v md strp uenv cat f id now _ hd hu
    obtain ⟨c, hc⟩ := Option.isSome_iff_exists.mp hu
    obtain ⟨row, _, _, _, _, hwind, hs⟩ := store_of_upload_some strp uenv cat md f id now c hd hc
    rw [hs]
    simp [hwind]

/-- Witness for C4's amended theorem at the malformed-wind grid: extraction
equals extraction over the grid truncated before the wind container, and the
partially extracted record still commits with a null wind speed. -/
theorem extract_partial_field_amended_witness :
    extract_metadata pf0 v4 =
      extract_metadata pf0 { v4 with weatherGrid := some [⟨some "TEMP", some "45Â°F"⟩] } ∧
    (store_image_data strpNone goodUploadEnv []
        ((extract_metadata pf0 v4).getD {}) (fileFor "X") "X" t0).ok = true ∧
    (store_image_data strpNone goodUploadEnv []
        ((extract_metadata pf0 v4).getD {}) (fileFor "X") "X" t0).inserted.map
        (fun r => r.wind_speed) = some none :=
  ⟨extract_partial_field_amended.1 pf0 v4 [⟨some "TEMP", some "45Â°F"⟩]
      ⟨some "WIND", some "CALM"⟩ [⟨some "PRESSURE", some "30 inHg"⟩,
        ⟨some "SUN", some "6:45 AM"⟩, ⟨some "MOON", some "Full Moon"⟩] rfl rfl,
    (extract_partial_field_amended.2 pf0 v4 ((extract_metadata pf0 v4).getD {})
      strpNone goodUploadEnv [] (fileFor "X") "X" t0 (by decide) rfl rfl).1,
    (extract_partial_field_amended.2 pf0 v4 ((extract_metadata pf0 v4).getD {})
      strpNone goodUploadEnv [] (fileFor "X") "X" t0 (by decide) rfl rfl).2⟩

/-- Counterexample to claim C5: in the primary variant
(`src/reveal_sync.py`) a 500-byte non-duplicate payload passes
`validate_image` — there is no minimum-size check — and the record is then
archived into the catalog. -/
theorem validate_min_size_cex :
    validate_image ([] : List Row) f500 "rid" = true ∧
    (store_image_data strpNone goodUploadEnv [] {} f500 "rid" t0).inserted.isSome = true := by
  exact ⟨by decide, by decide⟩

/-- Claim C5 as amended: only the TaylorRanch variant enforces the
1000-byte minimum — there a sub-1000-byte payload fails validation and the
download gate hands no payload to the store, so the record is never
archived; the primary variant's validation has no minimum-size check and
accepts any on-disk non-duplicate payload regardless of size. -/
theorem min_payload_amended :
    (∀ (processed : List String) (rows : List TaylorRanchVariant.TRRow)
        (f : ImageFile) (id : String),
      f.onDisk = true → f.size < 1000 →
      (TaylorRanchVariant.validate_image processed rows f id).1 = false ∧
      (TaylorRanchVariant.download_gate processed rows (some f) id).1 = none) ∧
    (∀ (cat : List Row) (f : ImageFile) (id : String),
      f.onDisk = true → dupQuery cat f.hash id = none →
      validate_image cat f id = true) := by
  constructor
  · intro processed rows f id hdisk hsz
    have hval : (TaylorRanchVariant.validate_image processed rows f id).1 = false := by
      unfold TaylorRanchVariant.validate_image
      by_cases hc : processed.contains id <;> simp [hdisk, hc, hsz]
    refine ⟨hval, ?_⟩
    unfold TaylorRanchVariant.download_gate
    simp [hval]
  · intro cat f id hdisk hd
    unfold validate_image
    simp [hdisk, hd]

/-- Witness for C5's amended theorem: a 450-byte payload is rejected by the
TaylorRanch validation and never reaches its store, while the primary
variant accepts the 500-byte payload. -/
theorem min_payload_amended_witness :
    (TaylorRanchVariant.validate_image [] [] f450 "rid").1 = false ∧
    (TaylorRanchVariant.download_gate [] [] (some f450) "rid").1 = none ∧
    validate_image ([] : List Row) f500 "rid" = true :=
  ⟨(min_payload_amended.1 [] [] f450 "rid" rfl (by decide)).1,
    (min_payload_amended.1 [] [] f450 "rid" rfl (by decide)).2,
    min_payload_amended.2 [] f500 "rid" rfl rfl⟩

/-- Claim C6: capture-time parsing tries the known textual formats in
order; if every format fails, the ingestion time is substituted as the
capture time and the record is still committed (primary variant), and the
TaylorRanch variant's two-format parse likewise falls back to the current
time. -/
theorem capture_time_fallback :
    (∀ (strp : String → String → Option Tstamp) (uenv : UploadEnv) (cat : List Row)
        (md : Metadata) (f : ImageFile) (id : String) (now : Tstamp),
      strp CAPTURE_TIME_FORMAT (md.timestamp.getD "") = none →
      dupQuery cat f.hash id = none →
      (upload_to_spaces uenv f id).url.isSome = true →
      (store_image_data strp uenv cat md f id now).ok = true ∧
      ∃ row, (store_image_data strp uenv cat md f id now).inserted = some row ∧
        row.capture_time = now) ∧
    (∀ (strp : String → String → Option Tstamp) (now : Tstamp) (s : String),
      strp TaylorRanchVariant.TR_FORMAT1 (pyStrip s) = none →
      strp TaylorRanchVariant.TR_FORMAT2 (pyStrip s) = none →
      TaylorRanchVariant.parseRevealTimestamp strp now (some s) = now) := by
  constructor
  · intro strp uenv cat md f id now hparse hd hu
    obtain ⟨c, hc⟩ := Option.isSome_iff_exists.mp hu
    obtain ⟨row, _, _, _, hct, _, hs⟩ := store_of_upload_some strp uenv cat md f id now c hd hc
    rw [hs]
    refine ⟨rfl, row, rfl, ?_⟩
    rw [hct, hparse]
    rfl
  · intro strp now s h1 h2
    simp only [TaylorRanchVariant.parseRevealTimestamp, h1, h2]

/-- Witness for C6 with a `strptime` oracle on which every format fails:
the inserted row carries the ingestion time, and the TaylorRanch parse
returns the current time. -/
theorem capture_time_fallback_witness :
    ((store_image_data strpNone goodUploadEnv [] { timestamp := some "not a date" }
        (fileFor "X") "X" t0).ok = true ∧
      ∃ row, (store_image_data strpNone goodUploadEnv [] { timestamp := some "not a date" }
          (fileFor "X") "X" t0).inserted = some row ∧ row.capture_time = t0) ∧
    TaylorRanchVariant.parseRevealTimestamp strpNone t0 (some "not a date") = t0 :=
  ⟨capture_time_fallback.1 strpNone goodUploadEnv [] { timestamp := some "not a date" }
      (fileFor "X") "X" t0 rfl rfl rfl,
    capture_time_fallback.2 strpNone t0 "not a date" rfl rfl⟩

/-- Counterexample to claim C8: for record X whose every upload attempt
fails, `process_image` leaves X in the session seen-set even though the
commit failed and the catalog is unchanged (the id is added before
extraction, download and store, not after a successful commit). -/
theorem seen_set_cex :
    processImageNone env8 p8 = ⟨0, ["X"], []⟩ := by
  decide

/-- Claim C8 as amended: the current id is added to the session seen-set as
soon as it is read from the detail view — before extraction, fetch and
commit — so a record failing at any later stage is still in the set and is
skipped rather than retried within the run; an id already in the set skips
extraction and fetch and just advances the cursor. -/
theorem seen_set_amended :
    (∀ (env : RunEnv) (p : PipeState) (id : String),
      currentId env p = some id → p.processed.contains id = false →
      (processImageNone env p).processed = id :: p.processed) ∧
    (∀ (env : RunEnv) (p : PipeState) (id : String),
      currentId env p = some id → p.processed.contains id = true →
      processImageNone env p = { p with pos := p.pos + 1 }) := by
  constructor
  · intro env p id hcur hmem
    unfold processImageNone
    rw [hcur]
    simp only [hmem, Bool.false_eq_true, if_false]
    cases extract_metadata env.pf (env.viewOf id) with
    | none => rfl
    | some md =>
      cases env.fileOf id with
      | none => rfl
      | some f =>
        by_cases hv : validate_image p.cat f id
        · simp only [hv, Bool.not_true, Bool.false_eq_true, if_false]
          by_cases hok :
              (store_image_data env.strp (env.uploadEnvOf id) p.cat md f id env.now).ok <;>
            simp [hok]
        · simp [hv]
  · intro env p id hcur hmem
    unfold processImageNone
    rw [hcur]
    exact if_pos hmem

/-- Witness for C8's amended theorem: record X with a failing upload is in
the seen-set after processing, and a second visit to X only advances. -/
theorem seen_set_amended_witness :
    (processImageNone env8 p8).processed = ["X"] ∧
    processImageNone env8 p8seen = { p8seen with pos := p8seen.pos + 1 } :=
  ⟨seen_set_amended.1 env8 p8 "X" rfl rfl,
    seen_set_amended.2 env8 p8seen "X" rfl rfl⟩

theorem store_catalog_cases (strp : String → String → Option Tstamp) (uenv : UploadEnv)
    (cat : List Row) (md : Metadata) (f : ImageFile) (id : String) (now : Tstamp) :
    (store_image_data strp uenv cat md f id now).catalog = cat ∨
    ((∀ x ∈ cat, x.reveal_id ≠ id) ∧
      ∃ row, row.reveal_id = id ∧
        (store_image_data strp uenv cat md f id now).catalog = row :: cat) := by
  cases hd : dupQuery cat f.hash id with
  | some r => rw [store_of_dup _ _ _ _ _ _ _ (by rw [hd]; rfl)]; exact Or.inl rfl
  | none =>
    cases hu : (upload_to_spaces uenv f id).url with
    | none => rw [store_of_upload_none _ _ _ _ _ _ _ hd hu]; exact Or.inl rfl
    | some c =>
      obtain ⟨row, hid, _, _, _, _, hs⟩ := store_of_upload_some strp uenv cat md f id now c hd hu
      right
      refine ⟨fun x hx => ((dupQuery_eq_none_iff cat f.hash id).mp hd x hx).2, row, hid, ?_⟩
      rw [hs]

theorem processImageNone_shape (env : RunEnv) (p : PipeState) :
    ((processImageNone env p).pos = p.pos ∨ (processImageNone env p).pos = p.pos + 1) ∧
    ((processImageNone env p).cat = p.cat ∨
      ∃ row id, currentId env p = some id ∧ row.reveal_id = id ∧
        (processImageNone env p).cat = row :: p.cat) := by
  unfold processImageNone
  cases hc : currentId env p with
  | none => exact ⟨Or.inl rfl, Or.inl rfl⟩
  | some id =>
    dsimp only
    by_cases hm : p.processed.contains id
    · rw [if_pos hm]
      exact ⟨Or.inr rfl, Or.inl rfl⟩
    · rw [if_neg hm]
      cases extract_metadata env.pf (env.viewOf id) with
      | none => exact ⟨Or.inl rfl, Or.inl rfl⟩
      | some md =>
        dsimp only
        cases env.fileOf id with
        | none => exact ⟨Or.inr rfl, Or.inl rfl⟩
        | some f =>
          dsimp only
          by_cases hv : (!validate_image p.cat f id) = true
          · rw [if_pos hv]
            exact ⟨Or.inr rfl, Or.inl rfl⟩
          · rw [if_neg hv]
            rcases store_catalog_cases env.strp (env.uploadEnvOf id) p.cat md f id env.now with
              hcat | ⟨hfresh, row, hrid, hcat⟩
            · by_cases hok :
                  (store_image_data env.strp (env.uploadEnvOf id) p.cat md f id env.now).ok = true
              · rw [if_pos hok]; exact ⟨Or.inr rfl, Or.inl hcat⟩
              · rw [if_neg hok]; exact ⟨Or.inl rfl, Or.inl hcat⟩
            · by_cases hok :
                  (store_image_data env.strp (env.uploadEnvOf id) p.cat md f id env.now).ok = true
              · rw [if_pos hok]; exact ⟨Or.inr rfl, Or.inr ⟨row, id, rfl, hrid, hcat⟩⟩
              · rw [if_neg hok]; exact ⟨Or.inl rfl, Or.inr ⟨row, id, rfl, hrid, hcat⟩⟩

theorem processFirstCard_shape (env : RunEnv) (p : PipeState) :
    (processFirstCard env p).pos = p.pos ∧
    ((processFirstCard env p).cat = p.cat ∨
      ∃ row id, env.upstream.get? 0 = some id ∧ row.reveal_id = id ∧
        (∀ x ∈ p.cat, x.reveal_id ≠ id) ∧
        (processFirstCard env p).cat = row :: p.cat) := by
  unfold processFirstCard
  cases hc : env.upstream.get? 0 with
  | none => exact ⟨rfl, Or.inl rfl⟩
  | some id =>
    dsimp only
    cases extract_metadata env.pf (env.viewOf id) with
    | none => exact ⟨rfl, Or.inl rfl⟩
    | some md =>
      dsimp only
      cases env.fileOf id with
      | none => exact ⟨rfl, Or.inl rfl⟩
      | some f =>
        dsimp only
        by_cases hv : (!validate_image p.cat f id) = true
        · rw [if_pos hv]
          exact ⟨rfl, Or.inl rfl⟩
        · rw [if_neg hv]
          rcases store_catalog_cases env.strp (env.uploadEnvOf id) p.cat md f id env.now with
            hcat | ⟨hfresh, row, hrid, hcat⟩
          · exact ⟨rfl, Or.inl hcat⟩
          · exact ⟨rfl, Or.inr ⟨row, id, rfl, hrid, hfresh, hcat⟩⟩

theorem syncLoop_watermark_inv (env : RunEnv) (cat0 : List Row) (w : String)
    (idx : Nat) (hw : w ≠ "") (hidx : env.upstream.get? idx = some w)
    (target maxAtt : Nat) :
    ∀ (fuel : Nat) (st : SyncState), st.pipe.pos ≤ idx →
      (∀ r ∈ st.pipe.cat,
        r ∈ cat0 ∨ ∃ j, j < idx ∧ env.upstream.get? j = some r.reveal_id) →
      (syncLoop env (some w) false target maxAtt fuel st).pipe.pos ≤ idx ∧
      ∀ r ∈ (syncLoop env (some w) false target maxAtt fuel st).pipe.cat,
        r ∈ cat0 ∨ ∃ j, j < idx ∧ env.upstream.get? j = some r.reveal_id := by
  intro fuel
  induction fuel with
  | zero =>
    intro st h1 h2
    exact ⟨h1, h2⟩
  | succ fuel ih =>
    intro st hpos hrows
    rw [syncLoop]
    by_cases hguard : st.successful < target ∧ st.attempt < maxAtt ∧ st.foundExisting = false
    · rw [if_pos hguard]
      by_cases hhit : (!false && watermarkHit (some w) (currentId env st.pipe)) = true
      · rw [if_pos hhit]
        exact ⟨hpos, hrows⟩
      · rw [if_neg hhit]
        have hlt : st.pipe.pos < idx := by
          rcases Nat.lt_or_ge st.pipe.pos idx with h | h
          · exact h
          · exfalso
            apply hhit
            have heq : st.pipe.pos = idx := Nat.le_antisymm hpos h
            have hcur : currentId env st.pipe = some w := by
              unfold currentId
              rw [heq]
              exact hidx
            rw [hcur]
            simp [watermarkHit, hw]
        have hshape := processImageNone_shape env st.pipe
        apply ih
        · rcases hshape.1 with h | h <;> rw [h] <;> omega
        · intro r hr
          rcases hshape.2 with hcat | ⟨row, id, hcur, hrid, hcat⟩
          · rw [hcat] at hr
            exact hrows r hr
          · rw [hcat] at hr
            rcases List.mem_cons.mp hr with rfl | hr'
            · right
              refine ⟨st.pipe.pos, hlt, ?_⟩
              rw [hrid]
              exact hcur
            · exact hrows r hr'
    · rw [if_neg hguard]
      exact ⟨hpos, hrows⟩

theorem latest_mem (cat0 : List Row) (w : String)
    (h : get_latest_image_id cat0 = some w) : ∃ r ∈ cat0, r.reveal_id = w := by
  cases cat0 with
  | nil => simp [get_latest_image_id] at h
  | cons r rs =>
    refine ⟨r, List.mem_cons_self r rs, ?_⟩
    simpa [get_latest_image_id] using h

set_option maxRecDepth 8000 in
/-- Claim C3: with no forced rescan, a sync run never archives the
watermark record or anything at or beyond its position in the upstream
sequence — every newly archived row comes from a position strictly before
the watermark — and on catalog history [A, B, C] (C newest) against the
upstream sequence [D, C, B, A] the run archives exactly D and stops having
detected the existing record C. -/
theorem sync_watermark_stop :
    (∀ (env : RunEnv) (cat0 : List Row) (w : String) (idx : Nat),
      get_latest_image_id cat0 = some w → w ≠ "" →
      env.upstream.get? idx = some w →
      ∀ r ∈ (syncRun env cat0 false).pipe.cat,
        r ∈ cat0 ∨ ∃ j, j < idx ∧ env.upstream.get? j = some r.reveal_id) ∧
    (syncRun env3 cat3 false).pipe.cat.map (fun r => r.reveal_id) = ["D", "C", "B", "A"] ∧
    (syncRun env3 cat3 false).foundExisting = true := by
  refine ⟨?_, by decide, by decide⟩
  intro env cat0 w idx hlatest hw hidx
  unfold syncRun
  rw [hlatest]
  by_cases hempty : env.upstream.isEmpty
  · rw [if_pos hempty]
    intro r hr
    exact Or.inl hr
  · rw [if_neg hempty]
    by_cases hhit0 : (!false && watermarkHit (some w) env.initialCurrentId) = true
    · rw [if_pos hhit0]
      intro r hr
      exact Or.inl hr
    · rw [if_neg hhit0]
      have hfc := processFirstCard_shape env ⟨0, [], cat0⟩
      have hinv := syncLoop_watermark_inv env cat0 w idx hw hidx target_count
        max_attempts max_attempts ⟨processFirstCard env ⟨0, [], cat0⟩, 1, 0, false⟩
        (by rw [hfc.1]; exact Nat.zero_le idx) ?_
      · exact hinv.2
      · intro r hr
        rcases hfc.2 with hcat | ⟨row, id, hc0, hrid, hfresh, hcat⟩
        · rw [hcat] at hr
          exact Or.inl hr
        · rw [hcat] at hr
          rcases List.mem_cons.mp hr with rfl | hr'
          · cases Nat.eq_zero_or_pos idx with
            | inl hzero =>
              exfalso
              obtain ⟨r0, hr0mem, hr0id⟩ := latest_mem cat0 w hlatest
              rw [hzero] at hidx
              rw [hc0] at hidx
              have : id = w := Option.some.inj hidx
              exact hfresh r0 hr0mem (by rw [hr0id, this])
            | inr hposidx =>
              right
              refine ⟨0, hposidx, ?_⟩
              rw [hrid]
              exact hc0
          · exact Or.inl hr'

set_option maxRecDepth 8000 in
/-- Witness for C3 at the [A, B, C] / [D, C, B, A] scenario: the general
statement instantiated at the row for C, together with the closed scenario
facts carried by the theorem itself. -/
theorem sync_watermark_stop_witness :
    (mkRow "C" "hC" ∈ cat3 ∨
      ∃ j, j < 1 ∧ env3.upstream.get? j = some (mkRow "C" "hC").reveal_id) ∧
    (syncRun env3 cat3 false).foundExisting = true :=
  ⟨sync_watermark_stop.1 env3 cat3 "C" 1 rfl (by decide) rfl (mkRow "C" "hC") (by decide),
    sync_watermark_stop.2.2⟩

set_option maxRecDepth 100000 in
/-- Claim C9 (demonstrating the code bug): running the jump variant with
`--jump 5 --limit 2` over nine fresh upstream records archives FOUR records
(r5, r6, r7, r8), not at most 2: the `success, is_duplicate` unpacking of
`process_image`'s `None` return raises on every iteration before
`successful_count` can be incremented, so the counter stays 0 and the loop
only stops after exhausting all 200 attempts.  The jump itself does skip
the first 5 records without extracting or fetching them (`r0`..`r4` never
enter the session seen-set). -/
theorem jump_limit_ignored :
    (jumpSyncRun env9 [] 5 2).map
        (fun st => (st.pipe.cat.map fun r => r.reveal_id, st.pipe.processed,
          st.successful, st.attempt)) =
      some (["r8", "r7", "r6", "r5"], ["r8", "r7", "r6", "r5"], 0, 200) := by
  decide

end RevealSyncModel
